import Mathlib

/-!
Shallow embedding of the http-client-toolkit core (cache envelope,
freshness engine, rate-limit header hints, and the request pipeline of
HttpClient.get) together with theorems settling the frozen claims.

Modelling conventions:
- JS epoch-millisecond timestamps are `Int`; ages and TTLs, which the code
  computes with real division by 1000, are `Rat` (JS float arithmetic is
  modelled as exact real arithmetic).
- `Date.parse` (the host date parser) is passed in as an explicit
  parameter `dateParse : String → Option Int`; `none` models `NaN`.
- `Date.now()` is passed in as an explicit `now : Int`.
- `Headers.get` results are `Option String` (`none` models `null`).
-/

namespace HttpToolkit

/-- Model of JS `String.prototype.trim`: drop whitespace from both ends. -/
def jsTrim (s : String) : String :=
  (((s.toList.dropWhile Char.isWhitespace).reverse.dropWhile
    Char.isWhitespace).reverse).asString

/-- Model of JS `String.prototype.toLowerCase` on the ASCII header names
and directive keys this code handles. -/
def jsToLower (s : String) : String := (s.toList.map Char.toLower).asString

/-- Helper for `splitOnChar`. -/
def splitOnCharAux (sep : Char) : List Char → List Char → List (List Char)
  | [], acc => [acc.reverse]
  | c :: rest, acc =>
    if c = sep then acc.reverse :: splitOnCharAux sep rest []
    else splitOnCharAux sep rest (c :: acc)

/-- Model of JS `String.prototype.split` with a one-character separator. -/
def splitOnChar (sep : Char) (s : String) : List String :=
  (splitOnCharAux sep s.toList []).map List.asString

/-- Model of JS `Number.parseInt(s, 10)`: skip leading whitespace, read an
optional sign, then the maximal run of leading decimal digits; `none`
models `NaN` (no digits). -/
def jsParseInt (s : String) : Option Int :=
  let cs := s.toList.dropWhile Char.isWhitespace
  let signed : Bool × List Char :=
    match cs with
    | '-' :: t => (true, t)
    | '+' :: t => (false, t)
    | t => (false, t)
  let digits := signed.2.takeWhile Char.isDigit
  if digits.isEmpty then none
  else
    let n : Nat := digits.foldl (fun a c => a * 10 + (c.toNat - 48)) 0
    some (if signed.1 then -(n : Int) else (n : Int))

/-- Directive record produced by `parseCacheControl`
(src cache-control-parser, `CacheControlDirectives`). Numeric directives
are `Option Nat` because `parseSeconds` rejects negative and malformed
values. -/
structure CacheControlDirectives where
  maxAge : Option Nat := none
  sMaxAge : Option Nat := none
  noCache : Bool := false
  noStore : Bool := false
  mustRevalidate : Bool := false
  proxyRevalidate : Bool := false
  «public» : Bool := false
  «private» : Bool := false
  immutable : Bool := false
  staleWhileRevalidate : Option Nat := none
  staleIfError : Option Nat := none
deriving DecidableEq

/-- `parseSeconds` of the cache-control parser: parseInt of the trimmed
value, `none` for non-finite or negative results. -/
def parseSeconds (raw : Option String) : Option Nat :=
  match raw with
  | none => none
  | some r =>
    match jsParseInt (jsTrim r) with
    | none => none
    | some n => if 0 ≤ n then some n.toNat else none

/-- One step of the cache-control directive loop: split the token on the
first `=`, lowercase the key, dispatch on the recognised directives. -/
def applyDirective (result : CacheControlDirectives) (part : String) :
    CacheControlDirectives :=
  let trimmed := jsTrim part
  if trimmed = "" then result
  else
    let cs := trimmed.toList
    let keyChars := cs.takeWhile (fun c => c ≠ '=')
    let key := jsToLower (jsTrim keyChars.asString)
    let value : Option String :=
      if keyChars.length = cs.length then none
      else some (jsTrim (cs.drop (keyChars.length + 1)).asString)
    if key = "max-age" then { result with maxAge := parseSeconds value }
    else if key = "s-maxage" then { result with sMaxAge := parseSeconds value }
    else if key = "no-cache" then { result with noCache := true }
    else if key = "no-store" then { result with noStore := true }
    else if key = "must-revalidate" then { result with mustRevalidate := true }
    else if key = "proxy-revalidate" then { result with proxyRevalidate := true }
    else if key = "public" then { result with «public» := true }
    else if key = "private" then { result with «private» := true }
    else if key = "immutable" then { result with immutable := true }
    else if key = "stale-while-revalidate" then
      { result with staleWhileRevalidate := parseSeconds value }
    else if key = "stale-if-error" then
      { result with staleIfError := parseSeconds value }
    else result

/-- `parseCacheControl(header)`: empty or absent header yields the zeroed
record; otherwise fold the comma-separated tokens. -/
def parseCacheControl (header : Option String) : CacheControlDirectives :=
  match header with
  | none => {}
  | some h => if h = "" then {} else (splitOnChar ',' h).foldl applyDirective {}

/-- `parseHttpDate(value)`: missing or blank input is `none`, the literal
string `0` is already-expired (epoch 0), anything else goes through the
host date parser (`NaN` becomes `none`). -/
def parseHttpDate (dateParse : String → Option Int) (value : Option String) :
    Option Int :=
  match value with
  | none => none
  | some s =>
    let trimmed := jsTrim s
    if trimmed = "" then none
    else if trimmed = "0" then some 0
    else dateParse trimmed

/-- Cache entry metadata (src cache-entry, `CacheEntryMetadata`). -/
structure CacheEntryMetadata where
  etag : Option String := none
  lastModified : Option String := none
  cacheControl : CacheControlDirectives := {}
  responseDate : Int := 0
  storedAt : Int := 0
  ageHeader : Int := 0
  varyHeaders : Option String := none
  varyValues : Option (List (String × Option String)) := none
  statusCode : Int := 200
  expires : Option Int := none
deriving DecidableEq

/-- Cache entry envelope. The `__cacheEntry : true` discriminant is
represented by the `StoredValue.envelope` constructor further below. -/
structure CacheEntry (V : Type) where
  value : V
  metadata : CacheEntryMetadata
deriving DecidableEq

/-- Headers read by the cache-entry functions, as resolved
(case-insensitive) `Headers.get` results. -/
structure HeadersModel where
  date : Option String := none
  age : Option String := none
  etag : Option String := none
  lastModified : Option String := none
  cacheControl : Option String := none
  expires : Option String := none
  vary : Option String := none
deriving DecidableEq

/-- `ageRaw !== null ? Number.parseInt(ageRaw.trim(), 10) || 0 : 0`:
the `|| 0` maps `NaN` (and `0` itself, and `-0`) to `0` and keeps every
other parsed integer unchanged, including negative ones. -/
def ageFromHeader (age : Option String) : Int :=
  match age with
  | none => 0
  | some raw =>
    match jsParseInt (jsTrim raw) with
    | none => 0
    | some n => if n = 0 then 0 else n

/-- `createCacheEntry(value, headers, statusCode)`. -/
def createCacheEntry {V : Type} (dateParse : String → Option Int) (now : Int)
    (value : V) (headers : HeadersModel) (statusCode : Int) : CacheEntry V :=
  let dateMs := (parseHttpDate dateParse headers.date).getD now
  { value := value
    metadata :=
      { etag := headers.etag
        lastModified := headers.lastModified
        cacheControl := parseCacheControl headers.cacheControl
        responseDate := dateMs
        storedAt := now
        ageHeader := ageFromHeader headers.age
        varyHeaders := headers.vary
        varyValues := none
        statusCode := statusCode
        expires := parseHttpDate dateParse headers.expires } }

/-- `refreshCacheEntry(existing, newHeaders)`: keep the value, refresh the
metadata from the 304 headers. `newCacheControl ? ... : existing` is a JS
truthiness test, so an empty Cache-Control string keeps the existing
directives; `?? existing` on etag, lastModified and varyHeaders replaces
only when the header is present; `newExpires !== null` replaces whenever
the header is present, even if unparseable; ageHeader, storedAt and
responseDate are recomputed unconditionally. -/
def refreshCacheEntry {V : Type} (dateParse : String → Option Int) (now : Int)
    (existing : CacheEntry V) (newHeaders : HeadersModel) : CacheEntry V :=
  let dateMs := (parseHttpDate dateParse newHeaders.date).getD now
  { value := existing.value
    metadata :=
      { existing.metadata with
        cacheControl :=
          match newHeaders.cacheControl with
          | some s =>
            if s = "" then existing.metadata.cacheControl
            else parseCacheControl (some s)
          | none => existing.metadata.cacheControl
        etag :=
          match newHeaders.etag with
          | some t => some t
          | none => existing.metadata.etag
        lastModified :=
          match newHeaders.lastModified with
          | some t => some t
          | none => existing.metadata.lastModified
        responseDate := dateMs
        storedAt := now
        ageHeader := ageFromHeader newHeaders.age
        expires :=
          match newHeaders.expires with
          | some s => parseHttpDate dateParse (some s)
          | none => existing.metadata.expires
        varyHeaders :=
          match newHeaders.vary with
          | some v => some v
          | none => existing.metadata.varyHeaders } }

/-- `calculateFreshnessLifetime(metadata)` in seconds (src freshness).
Priority: max-age, then Expires − Date (0 means already expired), then
the 10 percent Last-Modified heuristic, then 0. -/
def calculateFreshnessLifetime (dateParse : String → Option Int)
    (metadata : CacheEntryMetadata) : Rat :=
  match metadata.cacheControl.maxAge with
  | some a => (a : Rat)
  | none =>
    match metadata.expires with
    | some e =>
      if e = 0 then 0
      else max 0 (((e - metadata.responseDate : Int) : Rat) / 1000)
    | none =>
      match metadata.lastModified with
      | some lm =>
        if lm = "" then 0
        else
          match dateParse lm with
          | some lastModMs =>
            let age : Rat :=
              ((metadata.responseDate - lastModMs : Int) : Rat) / 1000
            if 0 < age then ((⌊age / 10⌋ : Int) : Rat) else 0
          | none => 0
      | none => 0

/-- `calculateCurrentAge(metadata, now)` in seconds (RFC 9111 4.2.3 with
response_delay approximated as 0). -/
def calculateCurrentAge (metadata : CacheEntryMetadata) (now : Int) : Rat :=
  let apparentAge : Rat :=
    max 0 (((metadata.storedAt - metadata.responseDate : Int) : Rat) / 1000)
  let correctedInitialAge := max apparentAge ((metadata.ageHeader : Int) : Rat)
  let residentTime : Rat := ((now - metadata.storedAt : Int) : Rat) / 1000
  correctedInitialAge + residentTime

/-- Freshness classification states. -/
inductive FreshnessStatus where
  | fresh
  | stale
  | mustRevalidate
  | staleWhileRevalidate
  | staleIfError
  | noCache
deriving DecidableEq

/-- `getFreshnessStatus(metadata, now)` (src freshness): no-cache first,
then fresh while lifetime exceeds age, then the stale ladder. -/
def getFreshnessStatus (dateParse : String → Option Int)
    (metadata : CacheEntryMetadata) (now : Int) : FreshnessStatus :=
  if metadata.cacheControl.noCache then .noCache
  else
    let freshnessLifetime := calculateFreshnessLifetime dateParse metadata
    let currentAge := calculateCurrentAge metadata now
    if freshnessLifetime > currentAge then .fresh
    else
      let staleness := currentAge - freshnessLifetime
      if metadata.cacheControl.mustRevalidate then .mustRevalidate
      else if (match metadata.cacheControl.staleWhileRevalidate with
          | some swr => decide (staleness ≤ (swr : Rat))
          | none => false) then .staleWhileRevalidate
      else if (match metadata.cacheControl.staleIfError with
          | some sie => decide (staleness ≤ (sie : Rat))
          | none => false) then .staleIfError
      else .stale

/-- `calculateStoreTTL(metadata, defaultTTL)` (src freshness): defaultTTL
when there is no freshness signal at all, else lifetime plus the larger
stale-serving window. -/
def calculateStoreTTL (dateParse : String → Option Int)
    (metadata : CacheEntryMetadata) (defaultTTL : Rat) : Rat :=
  let freshness := calculateFreshnessLifetime dateParse metadata
  if freshness = 0 ∧ metadata.cacheControl.maxAge = none then defaultTTL
  else
    let swrWindow : Rat := ((metadata.cacheControl.staleWhileRevalidate.getD 0 : Nat) : Rat)
    let sieWindow : Rat := ((metadata.cacheControl.staleIfError.getD 0 : Nat) : Rat)
    freshness + max swrWindow sieWindow

/-- Cache override options (`CacheOverrideOptions`), all fields optional. -/
structure CacheOverrideOptions where
  ignoreNoStore : Option Bool := none
  ignoreNoCache : Option Bool := none
  minimumTTL : Option Rat := none
  maximumTTL : Option Rat := none
deriving DecidableEq

/-- `clampTTL(ttl, overridesParam)`: falls back to the constructor-time
overrides when the parameter is absent, then raises to minimumTTL and
lowers to maximumTTL, in that order. -/
def clampTTL (clientOverrides : Option CacheOverrideOptions) (ttl : Rat)
    (overridesParam : Option CacheOverrideOptions) : Rat :=
  match overridesParam.orElse (fun _ => clientOverrides) with
  | none => ttl
  | some overrides =>
    let clamped :=
      match overrides.minimumTTL with
      | some m => max ttl m
      | none => ttl
    match overrides.maximumTTL with
    | some m => min clamped m
    | none => clamped

/-- `parseIntegerHeader(value)`: falsy (absent or empty) input is `none`,
then parseInt of the trimmed value, rejecting `NaN` and negatives. -/
def parseIntegerHeader (value : Option String) : Option Int :=
  match value with
  | none => none
  | some v =>
    if v = "" then none
    else
      match jsParseInt (jsTrim v) with
      | none => none
      | some n => if n < 0 then none else some n

/-- `parseRetryAfterMs(value)`: integer seconds become milliseconds;
otherwise the value is parsed as an HTTP date and turned into a
non-negative delta from now. -/
def parseRetryAfterMs (dateParse : String → Option Int) (now : Int)
    (value : Option String) : Option Int :=
  match value with
  | none => none
  | some v =>
    if v = "" then none
    else
      let fromDate : Option Int :=
        match dateParse v with
        | some dateMs => some (max 0 (dateMs - now))
        | none => none
      match jsParseInt (jsTrim v) with
      | some n => if 0 ≤ n then some (n * 1000) else fromDate
      | none => fromDate

/-- Core of `parseResetMs` once the header parsed to a non-negative
integer: `0` stays `0`; a value strictly greater than `now+1s` in seconds
is an absolute epoch-seconds deadline; otherwise it is relative seconds. -/
def parseResetMsOfParsed (now parsed : Int) : Int :=
  if parsed = 0 then 0
  else
    let nowSeconds := Int.fdiv now 1000
    if parsed > nowSeconds + 1 then max 0 ((parsed - nowSeconds) * 1000)
    else parsed * 1000

/-- `parseResetMs(value)` = `parseIntegerHeader` then the reset
interpretation above. -/
def parseResetMs (now : Int) (value : Option String) : Option Int :=
  (parseIntegerHeader value).map (parseResetMsOfParsed now)

/-- Attempt the tail of the combined-header pattern at the current
position: optional whitespace, the key letter (case-insensitive),
optional whitespace, `=`, optional whitespace, then at least one digit.
Returns the captured digit run. -/
def matchParamAt (key : Char) (cs : List Char) : Option (List Char) :=
  let cs1 := cs.dropWhile Char.isWhitespace
  match cs1 with
  | [] => none
  | c :: rest =>
    if c.toLower = key then
      match rest.dropWhile Char.isWhitespace with
      | '=' :: rest2 =>
        let digits := (rest2.dropWhile Char.isWhitespace).takeWhile Char.isDigit
        if digits.isEmpty then none else some digits
      | _ => none
    else none

/-- Leftmost match of the pattern that in the source is the regular
expression anchored at the start of the string or right after a `;` or
`,` delimiter (case-insensitive key, captured digits). -/
def scanCombined (key : Char) (cs : List Char) (atBoundary : Bool) : Option Nat :=
  match (if atBoundary then matchParamAt key cs else none) with
  | some digits => some (digits.foldl (fun a c => a * 10 + (c.toNat - 48)) 0)
  | none =>
    match cs with
    | [] => none
    | c :: rest => scanCombined key rest (c = ';' || c = ',')

/-- Result shape of `parseCombinedRateLimitHeader`. -/
structure CombinedRateLimit where
  remaining : Option Int := none
  resetMs : Option Int := none
deriving DecidableEq

/-- `parseCombinedRateLimitHeader(value)`: extract `r=<n>` and `t=<n>`.
A captured run of digits is a valid non-negative integer, so
`parseIntegerHeader` on the capture is the captured value itself, and
`parseResetMs` on the capture reduces to `parseResetMsOfParsed`. -/
def parseCombinedRateLimitHeader (now : Int) (value : Option String) :
    CombinedRateLimit :=
  match value with
  | none => {}
  | some v =>
    if v = "" then {}
    else
      { remaining := (scanCombined 'r' v.toList true).map (fun n => (n : Int))
        resetMs := (scanCombined 't' v.toList true).map
          (fun n => parseResetMsOfParsed now (n : Int)) }

/-- Resolved raw values of the four configured rate-limit header
families, as `getHeaderValue` returns them. -/
structure HintInputs where
  retryAfter : Option String := none
  reset : Option String := none
  remaining : Option String := none
  combined : Option String := none
deriving DecidableEq

/-- `applyServerRateLimitHints(url, headers, statusCode)`, modelled as a
pure function returning the new per-origin cooldown deadline
(`some (now + waitMs)`) or `none` when no cooldown is engaged. -/
def applyServerRateLimitHints (dateParse : String → Option Int) (now : Int)
    (headers : Option HintInputs) (statusCode : Option Int) : Option Int :=
  match headers with
  | none => none
  | some h =>
    let retryAfterMs := parseRetryAfterMs dateParse now h.retryAfter
    let resetMs := parseResetMs now h.reset
    let remaining := parseIntegerHeader h.remaining
    let combined := parseCombinedRateLimitHeader now h.combined
    let effectiveRemaining := remaining.orElse (fun _ => combined.remaining)
    let effectiveResetMs := resetMs.orElse (fun _ => combined.resetMs)
    let hasRateLimitErrorStatus : Bool :=
      statusCode == some 429 || statusCode == some 503
    let waitMs : Option Int :=
      match retryAfterMs with
      | some w => some w
      | none =>
        match effectiveResetMs with
        | some w =>
          if hasRateLimitErrorStatus ||
              (match effectiveRemaining with
               | some r => decide (r ≤ 0)
               | none => false) then some w
          else none
        | none => none
    match waitMs with
    | none => none
    | some w => if w ≤ 0 then none else some (now + w)

/-- Modelled from the spec: the vary-matcher module (`parseVaryHeader`,
`captureVaryValues`, `varyMatches`) is imported by the orchestrator from
the cache package but its implementation file is not among the sources.
Spec 4.5: parse `varyHeaders` into lowercased field names. -/
def parseVaryHeader (varyHeaders : Option String) : List String :=
  match varyHeaders with
  | none => []
  | some h => ((splitOnChar ',' h).map (fun s => jsToLower (jsTrim s))).filter (fun s => s ≠ "")

/-- Case-insensitive request-header lookup used by the vary matcher. -/
def lookupHeader (headers : List (String × String)) (name : String) :
    Option String :=
  (headers.find? (fun p => jsToLower p.1 = jsToLower name)).map Prod.snd

/-- Modelled from the spec (4.5): when writing an entry, capture exactly
the fields listed in `Vary` from the request headers. -/
def captureVaryValues (fields : List String)
    (requestHeaders : List (String × String)) : List (String × Option String) :=
  fields.map (fun f => (f, lookupHeader requestHeaders f))

/-- Modelled from the spec (4.5): `Vary: *` never matches; otherwise the
entry matches iff every listed field agrees between the captured values
and the current request headers (both absent is a match). -/
def varyMatches (varyValues : Option (List (String × Option String)))
    (varyHeaders : Option String)
    (requestHeaders : List (String × String)) : Bool :=
  let fields := parseVaryHeader varyHeaders
  if fields.contains "*" then false
  else
    fields.all (fun f =>
      let captured : Option String :=
        match varyValues with
        | none => none
        | some vs =>
          match vs.find? (fun p => p.1 = f) with
          | some p => p.2
          | none => none
      captured == lookupHeader requestHeaders f)

/-- Runtime error values that can travel through `get`'s try/catch:
an `Error` named `AbortError`; a `TypeError` (network failure); a plain
`HttpErrorContext` object (status, parsed body, optional body `message`
field); an `HttpClientError` (the default domain error, message plus
optional status); any other `Error`. -/
inductive ErrVal (V : Type) where
  | abortError : ErrVal V
  | typeError (msg : String) : ErrVal V
  | httpCtx (status : Int) (data : V) (bodyMsg : Option String) : ErrVal V
  | clientError (msg : String) (statusCode : Option Int) : ErrVal V
  | otherError (msg : String) : ErrVal V
deriving DecidableEq

/-- A value read back from the cache store: either an envelope (an object
passing the `isCacheEntry` guard: `__cacheEntry === true` with `value`
and `metadata` fields) or any other value (legacy raw payload), which the
guard rejects. -/
inductive StoredValue (V : Type) where
  | envelope (e : CacheEntry V) : StoredValue V
  | legacyRaw (v : V) : StoredValue V
deriving DecidableEq

/-- `isCacheEntry` type guard on a stored value. -/
def isCacheEntry {V : Type} : StoredValue V → Bool
  | .envelope _ => true
  | .legacyRaw _ => false

/-- Observable transport response: status, response headers (as resolved
gets), and the parsed body (`parseResponseBody` plus the body `message`
extraction used by `defaultHttpError`). -/
structure ResponseModel (V : Type) where
  status : Int
  headers : HeadersModel
  parsedData : V
  bodyMsg : Option String := none
deriving DecidableEq

/-- Outcome of the single transport attempt inside `executeFetch`
(retries are disabled: `resolveRetryConfig` returns null when no retry
option is configured, which is the default, so `maxAttempts = 1`). -/
inductive TransportOutcome (V : Type) where
  | resolved (r : ResponseModel V) : TransportOutcome V
  | rejected (e : ErrVal V) : TransportOutcome V
deriving DecidableEq

/-- Result of `executeFetch` when it does not throw. -/
inductive FetchResult (V : Type) where
  | notModified (refreshedEntry : CacheEntry V) : FetchResult V
  | completed (response : ResponseModel V) : FetchResult V
deriving DecidableEq

/-- `response.ok`: status in the 2xx range. -/
def responseOk (status : Int) : Bool := 200 ≤ status && status < 300

/-- `executeFetch(url, headers, signal, retryConfig, staleEntry)` with
retries disabled: a rejected transport promise is rethrown (an
`AbortError` is always rethrown, and without retry config the network
branch also falls through to the rethrow); a 304 with a held stale entry
refreshes it; a non-ok response throws the `HttpErrorContext`. -/
def executeFetchModel {V : Type} (dateParse : String → Option Int) (now : Int)
    (staleEntry : Option (CacheEntry V)) (t : TransportOutcome V) :
    Except (ErrVal V) (FetchResult V) :=
  match t with
  | .rejected e => .error e
  | .resolved r =>
    if r.status = 304 && staleEntry.isSome then
      match staleEntry with
      | some se => .ok (.notModified (refreshCacheEntry dateParse now se r.headers))
      | none => .error (.otherError "unreachable")
    else if !responseOk r.status then
      .error (.httpCtx r.status r.parsedData r.bodyMsg)
    else
      .ok (.completed r)

/-- `isServerErrorOrNetworkFailure(error)`: an `HttpErrorContext` with
status at least 500, or a `TypeError`. -/
def isServerErrorOrNetworkFailure {V : Type} : ErrVal V → Bool
  | .httpCtx status _ _ => 500 ≤ status
  | .typeError _ => true
  | _ => false

/-- `error instanceof Error && error.name === 'AbortError'`. -/
def isAbortError {V : Type} : ErrVal V → Bool
  | .abortError => true
  | _ => false

/-- `error instanceof HttpClientError`. -/
def isHttpClientError {V : Type} : ErrVal V → Bool
  | .clientError _ _ => true
  | _ => false

/-- `defaultHttpError(ctx)`: message is the context message, extended
with the body message when the parsed body carried one, plus the status. -/
def defaultHttpError {V : Type} (status : Int) (bodyMsg : Option String) :
    ErrVal V :=
  let baseMsg := "Request failed with status " ++ toString status
  match bodyMsg with
  | some m => .clientError (baseMsg ++ ", " ++ m) (some status)
  | none => .clientError baseMsg (some status)

/-- `generateClientError(err)`: an `HttpErrorContext` goes through the
user errorHandler when configured, else `defaultHttpError`; every other
value is wrapped in an `HttpClientError` carrying its message. -/
def generateClientError {V : Type}
    (errorHandler : Option (ErrVal V → ErrVal V)) (e : ErrVal V) : ErrVal V :=
  match e with
  | .httpCtx status data bodyMsg =>
    match errorHandler with
    | some f => f (.httpCtx status data bodyMsg)
    | none => defaultHttpError status bodyMsg
  | .abortError => .clientError "Aborted" none
  | .typeError msg => .clientError msg none
  | .clientError msg st => .clientError msg st
  | .otherError msg => .clientError msg none

/-- Environment of one `get(url, options)` call: the configured stores
and hooks, the responses the stores give this call, and the transport
outcome. `defaultCacheTTL` and `cacheOverrides` are the values resolved
by `resolveCacheConfig` (per-request merged over constructor
defaults), so `clampTTL` is invoked with no further client fallback. -/
structure GetEnv (V : Type) where
  now : Int
  dateParse : String → Option Int
  requestHeaders : Option (List (String × String)) := none
  defaultCacheTTL : Rat := 300
  cacheOverrides : Option CacheOverrideOptions := none
  hasCache : Bool := false
  cacheResult : Option (StoredValue V) := none
  hasDedupe : Bool := false
  waitForFirst : Option V := none
  hasRegisterOrJoin : Bool := true
  isOwner : Bool := true
  waitForSecond : Option V := none
  hasRateLimit : Bool := false
  rateOutcome : Except (ErrVal V) Bool := .ok false
  cooldownOutcome : Except (ErrVal V) Unit := .ok ()
  transport : TransportOutcome V
  responseTransformer : Option (V → V) := none
  responseHandler : Option (V → Except (ErrVal V) V) := none
  errorHandler : Option (ErrVal V → ErrVal V) := none
  isTruthy : V → Bool := fun _ => true

/-- Observable store side effects of one `get` call, in program order. -/
inductive GetEvent (V : Type) where
  | registerFallback : GetEvent V
  | swrScheduled : GetEvent V
  | fetchInvoked : GetEvent V
  | rateRecorded : GetEvent V
  | cacheSet (entry : CacheEntry V) (ttl : Rat) : GetEvent V
  | dedupeComplete (value : V) : GetEvent V
  | dedupeFail : GetEvent V
deriving DecidableEq

/-- Final outcome of one `get` call. -/
inductive GetOutcome (V : Type) where
  | ok (v : V) : GetOutcome V
  | thrown (e : ErrVal V) : GetOutcome V
deriving DecidableEq

/-- Outcome of the cache phase (step 1 of `get`): an early return of the
cached value, an early return plus a scheduled background revalidation,
or fall-through carrying the staleEntry / staleCandidate assignments. -/
inductive CachePhase (V : Type) where
  | hit (v : V) : CachePhase V
  | hitStaleWhileRevalidate (v : V) : CachePhase V
  | proceed (staleEntry staleCandidate : Option (CacheEntry V)) : CachePhase V
deriving DecidableEq

/-- Truthiness of `cacheOverrides?.ignoreNoCache` / `?.ignoreNoStore`. -/
def overrideFlag (overrides : Option CacheOverrideOptions)
    (pick : CacheOverrideOptions → Option Bool) : Bool :=
  match overrides with
  | some o => (pick o).getD false
  | none => false

/-- Cache phase of `get`: guard the stored value with `isCacheEntry`,
treat a Vary mismatch as a miss, then branch on the freshness status
exactly as the switch in the source does. -/
def cachePhase {V : Type} (env : GetEnv V) : CachePhase V :=
  if env.hasCache then
    match env.cacheResult with
    | some (.envelope entry) =>
      if varyMatches entry.metadata.varyValues entry.metadata.varyHeaders
          (env.requestHeaders.getD []) then
        match getFreshnessStatus env.dateParse entry.metadata env.now with
        | .fresh => .hit entry.value
        | .noCache =>
          if overrideFlag env.cacheOverrides (fun o => o.ignoreNoCache) then
            .hit entry.value
          else .proceed (some entry) none
        | .mustRevalidate => .proceed (some entry) none
        | .staleWhileRevalidate => .hitStaleWhileRevalidate entry.value
        | .staleIfError => .proceed (some entry) (some entry)
        | .stale => .proceed (some entry) none
      else .proceed none none
    | some (.legacyRaw _) => .proceed none none
    | none => .proceed none none
  else .proceed none none

/-- TTL computed at every cache write site of `get`:
`clampTTL(calculateStoreTTL(metadata, defaultTTL), overrides)` with the
resolved cache config. -/
def writeTTL {V : Type} (env : GetEnv V) (metadata : CacheEntryMetadata) : Rat :=
  clampTTL none (calculateStoreTTL env.dateParse metadata env.defaultCacheTTL)
    env.cacheOverrides

/-- Steps 3 to 10 of `get` (rate phase, fetch, 304 handling,
transform/handler, rate record, cache write, dedupe complete). -/
def afterDedupe {V : Type} (env : GetEnv V)
    (staleEntry : Option (CacheEntry V)) :
    Except (ErrVal V) V × List (GetEvent V) :=
  match (if env.hasRateLimit then env.rateOutcome else .ok false :
      Except (ErrVal V) Bool) with
  | .error e => (.error e, [])
  | .ok alreadyRecordedRateLimit =>
    match executeFetchModel env.dateParse env.now staleEntry env.transport with
    | .error e => (.error e, [.fetchInvoked])
    | .ok (.notModified refreshedEntry) =>
      let ttl := writeTTL env refreshedEntry.metadata
      let evs := [GetEvent.fetchInvoked]
        ++ (if env.hasCache then [.cacheSet refreshedEntry ttl] else [])
        ++ (if env.hasDedupe then [.dedupeComplete refreshedEntry.value] else [])
      (.ok refreshedEntry.value, evs)
    | .ok (.completed r) =>
      let data0 := r.parsedData
      let data1 :=
        match env.responseTransformer with
        | some f => if env.isTruthy data0 then f data0 else data0
        | none => data0
      match (match env.responseHandler with
        | some f => f data1
        | none => .ok data1 : Except (ErrVal V) V) with
      | .error e => (.error e, [.fetchInvoked])
      | .ok result =>
        let rateEvs : List (GetEvent V) :=
          if env.hasRateLimit && !alreadyRecordedRateLimit then [.rateRecorded]
          else []
        let cc := parseCacheControl r.headers.cacheControl
        let shouldStore : Bool :=
          !cc.noStore || overrideFlag env.cacheOverrides (fun o => o.ignoreNoStore)
        let cacheEvs : List (GetEvent V) :=
          if env.hasCache && shouldStore then
            let entry0 := createCacheEntry env.dateParse env.now result r.headers r.status
            let capturedValues :=
              captureVaryValues (parseVaryHeader entry0.metadata.varyHeaders)
                (env.requestHeaders.getD [])
            let entry1 :=
              if (match entry0.metadata.varyHeaders with
                  | some s => s ≠ ""
                  | none => false) && env.requestHeaders.isSome then
                { entry0 with
                  metadata := { entry0.metadata with varyValues := some capturedValues } }
              else entry0
            [.cacheSet entry1 (writeTTL env entry1.metadata)]
          else []
        let dedupeEvs : List (GetEvent V) :=
          if env.hasDedupe then [.dedupeComplete result] else []
        (.ok result, [GetEvent.fetchInvoked] ++ rateEvs ++ cacheEvs ++ dedupeEvs)

/-- The try block of `get`: cooldown, cache phase, dedupe phase, then
`afterDedupe`. -/
def tryBlock {V : Type} (env : GetEnv V) :
    Except (ErrVal V) V × List (GetEvent V) :=
  match env.cooldownOutcome with
  | .error e => (.error e, [])
  | .ok _ =>
    match cachePhase env with
    | .hit v => (.ok v, [])
    | .hitStaleWhileRevalidate v => (.ok v, [.swrScheduled])
    | .proceed staleEntry _ =>
      if env.hasDedupe then
        match env.waitForFirst with
        | some v => (.ok v, [])
        | none =>
          if env.hasRegisterOrJoin then
            if env.isOwner then afterDedupe env staleEntry
            else
              match env.waitForSecond with
              | some v => (.ok v, [])
              | none => afterDedupe env staleEntry
          else
            let (res, evs) := afterDedupe env staleEntry
            (res, GetEvent.registerFallback :: evs)
      else afterDedupe env staleEntry

/-- The staleCandidate visible to the catch block: assigned by the cache
phase, but only if the cooldown check before it did not already throw. -/
def staleCandidateOf {V : Type} (env : GetEnv V) : Option (CacheEntry V) :=
  match env.cooldownOutcome with
  | .error _ => none
  | .ok _ =>
    match cachePhase env with
    | .proceed _ staleCandidate => staleCandidate
    | _ => none

/-- Tail of the catch block after the stale-if-error fallback check:
mark dedupe failed, rethrow `AbortError` unwrapped, rethrow an existing
`HttpClientError`, wrap everything else. -/
def catchTail {V : Type} (env : GetEnv V) (e : ErrVal V)
    (evs : List (GetEvent V)) : GetOutcome V × List (GetEvent V) :=
  let evs1 := evs ++ (if env.hasDedupe then [.dedupeFail] else [])
  if isAbortError e then (.thrown e, evs1)
  else if isHttpClientError e then (.thrown e, evs1)
  else (.thrown (generateClientError env.errorHandler e), evs1)

/-- `HttpClient.get(url, options)`: the try block plus the catch block
(stale-if-error fallback, dedupe fail, error classification). -/
def runGet {V : Type} (env : GetEnv V) :
    GetOutcome V × List (GetEvent V) :=
  match tryBlock env with
  | (.ok v, evs) => (.ok v, evs)
  | (.error e, evs) =>
    match staleCandidateOf env with
    | some entry =>
      if isServerErrorOrNetworkFailure e then
        (.ok entry.value,
          evs ++ (if env.hasDedupe then [.dedupeComplete entry.value] else []))
      else catchTail env e evs
    | none => catchTail env e evs

/-! Definitions written from the words of the specification and of the
claims, for refinement comparison against the source-translated
definitions above. -/

/-- Freshness classification as the claim states it: `no-cache` if the
noCache directive is set; else `fresh` iff freshness lifetime exceeds
current age; else, with staleness = age minus lifetime,
`must-revalidate` if mustRevalidate, else `stale-while-revalidate` if
that window is defined and staleness is within it, else `stale-if-error`
if that window is defined and staleness is within it, else `stale`. -/
def specFreshnessStatus (dateParse : String → Option Int)
    (metadata : CacheEntryMetadata) (now : Int) : FreshnessStatus :=
  if metadata.cacheControl.noCache then .noCache
  else
    let lifetime := calculateFreshnessLifetime dateParse metadata
    let age := calculateCurrentAge metadata now
    if lifetime > age then .fresh
    else
      let staleness := age - lifetime
      if metadata.cacheControl.mustRevalidate then .mustRevalidate
      else if (match metadata.cacheControl.staleWhileRevalidate with
          | some swr => decide (staleness ≤ (swr : Rat))
          | none => false) then .staleWhileRevalidate
      else if (match metadata.cacheControl.staleIfError with
          | some sie => decide (staleness ≤ (sie : Rat))
          | none => false) then .staleIfError
      else .stale

/-- The window term of the spec formula
`lifetime + max(staleWhileRevalidate, staleIfError, 0)`, with an absent
window contributing nothing. -/
def specStaleWindow (cc : CacheControlDirectives) : Rat :=
  max (max ((cc.staleWhileRevalidate.getD 0 : Nat) : Rat)
    ((cc.staleIfError.getD 0 : Nat) : Rat)) 0

/-- Store TTL as the claim states it: the freshness lifetime plus the
larger stale window, except defaultTTL when maxAge is absent and the
computed lifetime is 0 (even when SWR or SIE windows are defined). -/
def specStoreTTL (dateParse : String → Option Int)
    (metadata : CacheEntryMetadata) (defaultTTL : Rat) : Rat :=
  if metadata.cacheControl.maxAge = none ∧
      calculateFreshnessLifetime dateParse metadata = 0 then defaultTTL
  else calculateFreshnessLifetime dateParse metadata +
    specStaleWindow metadata.cacheControl

/-- Cooldown wait as the claim states it: the parsed Retry-After value
when that header parses; otherwise, when a Reset-family value is present
(plain or combined form) and the status is 429 or 503 or the parsed
Remaining value (plain or combined form) is at most 0, the Reset value. -/
def claimCooldownWait (dateParse : String → Option Int) (now : Int)
    (h : HintInputs) (statusCode : Option Int) : Option Int :=
  match parseRetryAfterMs dateParse now h.retryAfter with
  | some w => some w
  | none =>
    match (parseResetMs now h.reset).orElse
        (fun _ => (parseCombinedRateLimitHeader now h.combined).resetMs) with
    | some w =>
      if (statusCode == some 429 || statusCode == some 503) ||
          (match (parseIntegerHeader h.remaining).orElse
              (fun _ => (parseCombinedRateLimitHeader now h.combined).remaining) with
           | some r => decide (r ≤ 0)
           | none => false) then some w
      else none
    | none => none

/-! Concrete environments used to evaluate the pipeline model at
specific inputs. -/

/-- A dedupe-joiner call: registerOrJoin available, isOwner false, both
waitFor calls resolve empty, no cache or rate-limit store, transport
replies 200 with payload 7. -/
def joinerEnv : GetEnv Nat :=
  { now := 0
    dateParse := fun _ => none
    hasDedupe := true
    isOwner := false
    transport := .resolved { status := 200, headers := {}, parsedData := 7 } }

/-- An owner call whose transport rejects with an AbortError. -/
def abortEnv : GetEnv Nat :=
  { now := 0
    dateParse := fun _ => none
    hasDedupe := true
    isOwner := true
    transport := .rejected .abortError }

/-- Metadata of a cached entry that classifies as stale-if-error at
`now = 5000`: max-age 1, stale-if-error 300, stored and dated at 0. -/
def sieMeta : CacheEntryMetadata :=
  { cacheControl := { maxAge := some 1, staleIfError := some 300 } }

/-- The stale-if-error cached entry with payload 42. -/
def sieEntry : CacheEntry Nat := { value := 42, metadata := sieMeta }

/-- A call holding the stale-if-error entry whose fetch fails with a 500. -/
def sieEnv : GetEnv Nat :=
  { now := 5000
    dateParse := fun _ => none
    hasCache := true
    hasDedupe := true
    cacheResult := some (.envelope sieEntry)
    transport := .resolved { status := 500, headers := {}, parsedData := 0 } }

/-- Response headers carrying `Cache-Control: max-age=50`. -/
def maxAge50Headers : HeadersModel := { cacheControl := some "max-age=50" }

/-- A cache-store-only call whose fetch succeeds with the max-age=50
response, leading to a cache write. -/
def cacheWriteEnv : GetEnv Nat :=
  { now := 0
    dateParse := fun _ => none
    hasCache := true
    transport := .resolved
      { status := 200, headers := maxAge50Headers, parsedData := 1 } }

/-- The entry the cache-write call stores. -/
def cacheWriteEntry : CacheEntry Nat :=
  createCacheEntry (fun _ => none) 0 1 maxAge50Headers 200

/-! Helper lemmas about the pipeline traces. -/

/-- The catch tail always appends exactly the dedupe-fail marker (when a
dedupe store is configured) to the events accumulated so far. -/
theorem catchTail_snd {V : Type} (env : GetEnv V) (e : ErrVal V)
    (evs : List (GetEvent V)) :
    (catchTail env e evs).2 =
      evs ++ (if env.hasDedupe then [.dedupeFail] else []) := by
  simp only [catchTail]
  split_ifs <;> rfl

/-- The full run emits the try-block events followed by a suffix that
contains only dedupe bookkeeping: never a cache write, never a fetch. -/
theorem runGet_trace_split {V : Type} (env : GetEnv V) :
    ∃ s, (runGet env).2 = (tryBlock env).2 ++ s ∧
      (∀ e t, GetEvent.cacheSet e t ∉ s) ∧ (GetEvent.fetchInvoked ∉ s) := by
  unfold runGet
  rcases h : tryBlock env with ⟨res, evs⟩
  cases res with
  | ok v =>
    refine ⟨[], by simp, by simp, by simp⟩
  | error e =>
    cases hsc : staleCandidateOf env with
    | none =>
      refine ⟨if env.hasDedupe then [.dedupeFail] else [], ?_, ?_, ?_⟩
      · simpa using catchTail_snd env e evs
      · intro e2 t2; split <;> simp
      · split <;> simp
    | some entry =>
      by_cases hse : isServerErrorOrNetworkFailure e
      · refine ⟨if env.hasDedupe then [.dedupeComplete entry.value] else [], ?_, ?_, ?_⟩
        · simp [hse]
        · intro e2 t2; split <;> simp
        · split <;> simp
      · refine ⟨if env.hasDedupe then [.dedupeFail] else [], ?_, ?_, ?_⟩
        · simp [hse]; exact catchTail_snd env e evs
        · intro e2 t2; split <;> simp
        · split <;> simp

/-- Once the rate phase admits the request, the fetch phase runs: its
invocation marker is in the trace of the remaining pipeline steps. -/
theorem afterDedupe_fetchInvoked {V : Type} (env : GetEnv V)
    (se : Option (CacheEntry V)) (b : Bool)
    (hrate : (if env.hasRateLimit then env.rateOutcome else .ok false :
      Except (ErrVal V) Bool) = .ok b) :
    GetEvent.fetchInvoked ∈ (afterDedupe env se).2 := by
  unfold afterDedupe
  rw [hrate]
  rcases hf : executeFetchModel env.dateParse env.now se env.transport with e2 | fr
  · simp
  · cases fr with
    | notModified refreshedEntry => simp
    | completed r =>
      simp only []
      split <;> simp

/-- Every cache write emitted by the post-dedupe pipeline steps carries
the clamped store TTL of the entry it writes. -/
theorem afterDedupe_cacheSet {V : Type} (env : GetEnv V)
    (se : Option (CacheEntry V)) (e : CacheEntry V) (t : Rat)
    (h : GetEvent.cacheSet e t ∈ (afterDedupe env se).2) :
    t = writeTTL env e.metadata := by
  unfold afterDedupe at h
  rcases hr : (if env.hasRateLimit then env.rateOutcome else .ok false :
      Except (ErrVal V) Bool) with e0 | b
  · rw [hr] at h; simp at h
  · rw [hr] at h
    rcases hf : executeFetchModel env.dateParse env.now se env.transport with e2 | fr
    · rw [hf] at h; simp at h
    · rw [hf] at h
      cases fr with
      | notModified refreshedEntry =>
        split_ifs at h <;> simp_all
      | completed r =>
        simp only [] at h
        revert h
        split
        · simp
        · intro h
          split_ifs at h <;> simp_all

/-- An owner that passed the dedupe phase continues with the remaining
pipeline steps. -/
theorem tryBlock_owner_eq {V : Type} (env : GetEnv V)
    (se sc : Option (CacheEntry V))
    (hc : env.cooldownOutcome = .ok ())
    (hp : cachePhase env = .proceed se sc)
    (hd : env.hasDedupe = true)
    (hw1 : env.waitForFirst = none)
    (hr : env.hasRegisterOrJoin = true)
    (ho : env.isOwner = true) :
    tryBlock env = afterDedupe env se := by
  unfold tryBlock
  rw [hc, hp, hd, hw1, hr, ho]
  rfl

/-- A joiner whose second waitFor resolves empty continues with the
remaining pipeline steps, exactly like an owner. -/
theorem tryBlock_joiner_eq {V : Type} (env : GetEnv V)
    (se sc : Option (CacheEntry V))
    (hc : env.cooldownOutcome = .ok ())
    (hp : cachePhase env = .proceed se sc)
    (hd : env.hasDedupe = true)
    (hw1 : env.waitForFirst = none)
    (hr : env.hasRegisterOrJoin = true)
    (ho : env.isOwner = false)
    (hw2 : env.waitForSecond = none) :
    tryBlock env = afterDedupe env se := by
  unfold tryBlock
  rw [hc, hp, hd, hw1, hr, ho, hw2]
  rfl

/-- Every cache write in the try block carries the clamped store TTL. -/
theorem tryBlock_cacheSet {V : Type} (env : GetEnv V) (e : CacheEntry V)
    (t : Rat) (h : GetEvent.cacheSet e t ∈ (tryBlock env).2) :
    t = writeTTL env e.metadata := by
  unfold tryBlock at h
  rcases hc : env.cooldownOutcome with e0 | u
  · rw [hc] at h; simp at h
  · rw [hc] at h
    rcases hp : cachePhase env with v | v | ⟨se, sc⟩
    · rw [hp] at h; simp at h
    · rw [hp] at h; simp at h
    · rw [hp] at h
      simp only at h
      by_cases hd : env.hasDedupe
      · rw [if_pos hd] at h
        rcases hw1 : env.waitForFirst with _ | v1
        · rw [hw1] at h
          by_cases hr : env.hasRegisterOrJoin
          · rw [if_pos hr] at h
            by_cases ho : env.isOwner
            · rw [if_pos ho] at h
              exact afterDedupe_cacheSet env se e t h
            · rw [if_neg ho] at h
              rcases hw2 : env.waitForSecond with _ | v2
              · rw [hw2] at h
                exact afterDedupe_cacheSet env se e t h
              · rw [hw2] at h; simp at h
          · rw [if_neg hr] at h
            rcases hAD : afterDedupe env se with ⟨res2, evs2⟩
            rw [hAD] at h
            simp only [List.mem_cons] at h
            rcases h with h | h
            · exact absurd h (by simp)
            · exact afterDedupe_cacheSet env se e t (by rw [hAD]; exact h)
        · rw [hw1] at h; simp at h
      · rw [if_neg hd] at h
        exact afterDedupe_cacheSet env se e t h

/-! Claim theorems. -/

/-- Claim C1, counterexample: a joiner (`isOwner = false`) whose second
`waitFor` resolves with no value does invoke the transport fetch and
completes with the fetched value, instead of propagating an
upstream-failed outcome without fetching as the claim states. -/
theorem c1_counterexample :
    (runGet joinerEnv).1 = .ok 7 ∧
      GetEvent.fetchInvoked ∈ (runGet joinerEnv).2 := by
  constructor
  · decide
  · decide

/-- Claim C1, amended: in every get call that reaches the dedupe phase
with registerOrJoin available, loses the ownership race, and sees both
waitFor calls resolve empty, the pipeline proceeds through the rate
phase and invokes the transport fetch (it re-contends instead of
propagating an upstream-failed outcome). -/
theorem c1_joiner_proceeds_to_fetch :
    ∀ (V : Type) (env : GetEnv V) (se sc : Option (CacheEntry V)) (b : Bool),
      env.cooldownOutcome = .ok () →
      cachePhase env = .proceed se sc →
      env.hasDedupe = true →
      env.waitForFirst = none →
      env.hasRegisterOrJoin = true →
      env.isOwner = false →
      env.waitForSecond = none →
      (if env.hasRateLimit then env.rateOutcome else .ok false :
        Except (ErrVal V) Bool) = .ok b →
      GetEvent.fetchInvoked ∈ (runGet env).2 := by
  intro V env se sc b hc hp hd hw1 hr ho hw2 hrate
  obtain ⟨s, hs, _, _⟩ := runGet_trace_split env
  rw [hs, List.mem_append]
  left
  rw [tryBlock_joiner_eq env se sc hc hp hd hw1 hr ho hw2]
  exact afterDedupe_fetchInvoked env se b hrate

/-- Claim C1, witness: the amended theorem applied to the concrete
joiner environment. -/
theorem c1_witness : GetEvent.fetchInvoked ∈ (runGet joinerEnv).2 :=
  c1_joiner_proceeds_to_fetch Nat joinerEnv none none false rfl rfl rfl rfl
    rfl rfl rfl rfl

/-- Claim C2, counterexample: a get call that terminates with an
AbortError has already called the dedupe store fail operation before the
abort propagates, contradicting the claim that the abort propagates
before any dedup completion or fail call. -/
theorem c2_counterexample :
    (runGet abortEnv).1 = .thrown .abortError ∧
      GetEvent.dedupeFail ∈ (runGet abortEnv).2 := by
  constructor
  · decide
  · decide

/-- Claim C2, amended: whenever the try block of a get call throws an
AbortError, the call rethrows exactly that error unwrapped (never the
default domain error), but only after the dedupe store fail call has
been appended to the trace (when a dedupe store is configured). -/
theorem c2_abort_rethrown_unwrapped_after_dedupe_fail :
    ∀ (V : Type) (env : GetEnv V),
      (tryBlock env).1 = .error .abortError →
      runGet env = (.thrown .abortError,
        (tryBlock env).2 ++ (if env.hasDedupe then [.dedupeFail] else [])) := by
  intro V env htb
  unfold runGet
  rcases h : tryBlock env with ⟨res, evs⟩
  rw [h] at htb
  simp only at htb
  subst htb
  simp only
  rcases hsc : staleCandidateOf env with _ | entry <;> rfl

/-- Claim C2, witness: the amended theorem applied to the concrete
aborting environment. -/
theorem c2_witness :
    runGet abortEnv = (.thrown .abortError, [.fetchInvoked, .dedupeFail]) :=
  c2_abort_rethrown_unwrapped_after_dedupe_fail Nat abortEnv rfl

/-- Claim C3, counterexample: refreshing an entry whose `ageHeader` is 7
with a 304 response that carries no Age header resets `ageHeader` to 0
instead of preserving the existing value. -/
theorem c3_counterexample :
    ¬ ((refreshCacheEntry (V := Nat) (fun _ => none) 1000
        { value := 5, metadata := { ageHeader := 7 } } {}).metadata.ageHeader =
      ({ value := 5, metadata := { ageHeader := 7 } } :
        CacheEntry Nat).metadata.ageHeader) := by
  decide

/-- Claim C3, amended: `refreshCacheEntry(e, h)` keeps `value` and
`statusCode` (and the captured `varyValues`); `cacheControl`, `etag`,
`lastModified`, `expires` and `varyHeaders` are overwritten only when the
304 carried the corresponding header and otherwise keep the existing
value; `storedAt` and `responseDate` are now-derived; but `ageHeader` is
recomputed unconditionally from the 304 Age header (0 when absent or
non-numeric) rather than preserved. -/
theorem c3_refresh_entry_characterization :
    ∀ (V : Type) (dateParse : String → Option Int) (now : Int)
      (e : CacheEntry V) (h : HeadersModel),
      (refreshCacheEntry dateParse now e h).value = e.value ∧
      (refreshCacheEntry dateParse now e h).metadata.statusCode =
        e.metadata.statusCode ∧
      (refreshCacheEntry dateParse now e h).metadata.storedAt = now ∧
      (refreshCacheEntry dateParse now e h).metadata.responseDate =
        (parseHttpDate dateParse h.date).getD now ∧
      (refreshCacheEntry dateParse now e h).metadata.cacheControl =
        (match h.cacheControl with
         | some s =>
           if s = "" then e.metadata.cacheControl else parseCacheControl (some s)
         | none => e.metadata.cacheControl) ∧
      (refreshCacheEntry dateParse now e h).metadata.etag =
        (match h.etag with
         | some t => some t
         | none => e.metadata.etag) ∧
      (refreshCacheEntry dateParse now e h).metadata.lastModified =
        (match h.lastModified with
         | some t => some t
         | none => e.metadata.lastModified) ∧
      (refreshCacheEntry dateParse now e h).metadata.expires =
        (match h.expires with
         | some s => parseHttpDate dateParse (some s)
         | none => e.metadata.expires) ∧
      (refreshCacheEntry dateParse now e h).metadata.varyHeaders =
        (match h.vary with
         | some v => some v
         | none => e.metadata.varyHeaders) ∧
      (refreshCacheEntry dateParse now e h).metadata.varyValues =
        e.metadata.varyValues ∧
      (refreshCacheEntry dateParse now e h).metadata.ageHeader =
        ageFromHeader h.age := by
  intro V dateParse now e h
  exact ⟨rfl, rfl, rfl, rfl, rfl, rfl, rfl, rfl, rfl, rfl, rfl⟩

/-- Claim C4: `getFreshnessStatus` follows exactly the claimed decision
order (no-cache first, then fresh iff lifetime exceeds age, then
must-revalidate, then the SWR and SIE windows compared against
staleness, else stale); in particular an entry whose only directive is
`maxAge = M` is fresh exactly while its current age is below M and stale
otherwise. -/
theorem c4_freshness_decision_order :
    (∀ (dateParse : String → Option Int) (metadata : CacheEntryMetadata)
      (now : Int),
      getFreshnessStatus dateParse metadata now =
        specFreshnessStatus dateParse metadata now) ∧
    (∀ (dateParse : String → Option Int) (m : CacheEntryMetadata) (M : Nat)
      (now : Int),
      getFreshnessStatus dateParse
          { m with cacheControl := { maxAge := some M } } now =
        (if calculateCurrentAge
            { m with cacheControl := { maxAge := some M } } now < (M : Rat)
         then .fresh else .stale)) := by
  constructor
  · intro dateParse metadata now; rfl
  · intro dateParse m M now
    simp [getFreshnessStatus, calculateFreshnessLifetime, gt_iff_lt]

/-- Claim C5: when a get call holds a stale-if-error candidate and its
fetch throws, then exactly when the error is an HTTP error with status
at least 500 or a network failure (TypeError) the error is swallowed,
the stale value is returned, and dedupe is completed with the stale
value; otherwise no fallback happens, the error propagates as a thrown
outcome, and the only dedupe bookkeeping is the fail call. -/
theorem c5_stale_if_error_fallback :
    ∀ (V : Type) (env : GetEnv V) (se : Option (CacheEntry V))
      (entry : CacheEntry V) (b : Bool) (e : ErrVal V),
      env.cooldownOutcome = .ok () →
      cachePhase env = .proceed se (some entry) →
      env.hasDedupe = true →
      env.waitForFirst = none →
      env.hasRegisterOrJoin = true →
      env.isOwner = true →
      (if env.hasRateLimit then env.rateOutcome else .ok false :
        Except (ErrVal V) Bool) = .ok b →
      executeFetchModel env.dateParse env.now se env.transport = .error e →
      (isServerErrorOrNetworkFailure e = true →
        runGet env = (.ok entry.value,
          [.fetchInvoked, .dedupeComplete entry.value])) ∧
      (isServerErrorOrNetworkFailure e = false →
        (∃ e2, (runGet env).1 = .thrown e2) ∧
        (runGet env).2 = [.fetchInvoked, .dedupeFail]) := by
  intro V env se entry b e hc hp hd hw1 hr ho hrate hfetch
  have hAD : afterDedupe env se = (.error e, [.fetchInvoked]) := by
    unfold afterDedupe
    rw [hrate, hfetch]
  have hTB : tryBlock env = (.error e, [.fetchInvoked]) := by
    rw [tryBlock_owner_eq env se (some entry) hc hp hd hw1 hr ho, hAD]
  have hSC : staleCandidateOf env = some entry := by
    unfold staleCandidateOf
    rw [hc, hp]
  constructor
  · intro hse
    unfold runGet
    rw [hTB]
    simp only
    rw [hSC]
    simp [hse, hd]
  · intro hse
    unfold runGet
    rw [hTB]
    simp only
    rw [hSC]
    simp only [hse, Bool.false_eq_true, if_false]
    constructor
    · simp only [catchTail]
      split_ifs <;> exact ⟨_, rfl⟩
    · rw [catchTail_snd env e [GetEvent.fetchInvoked], hd]
      rfl

/-- Claim C5, witness: the concrete stale-if-error environment with a
500 response falls back to the cached value 42 and completes dedupe
with it. -/
theorem c5_witness :
    runGet sieEnv = (.ok 42, [.fetchInvoked, .dedupeComplete 42]) := by
  have hfs : getFreshnessStatus (fun _ => none) sieMeta 5000 = .staleIfError := by
    norm_num [getFreshnessStatus, calculateFreshnessLifetime,
      calculateCurrentAge, sieMeta]
  have hv : varyMatches sieMeta.varyValues sieMeta.varyHeaders [] = true := by
    decide
  have hp : cachePhase sieEnv = .proceed (some sieEntry) (some sieEntry) := by
    simp [cachePhase, sieEnv, sieEntry, hv, hfs]
  exact (c5_stale_if_error_fallback Nat sieEnv (some sieEntry) sieEntry false
    (.httpCtx 500 0 none) rfl hp rfl rfl rfl rfl rfl rfl).1 rfl

/-- Claim C6, counterexample: a negative Age header survives the
`parseInt || 0` parse, so the created entry stores `ageHeader = -5` and
the claimed invariant `ageHeader ≥ 0` fails. -/
theorem c6_counterexample :
    (createCacheEntry (V := Nat) (fun _ => none) 0 0
        { age := some "-5" } 200).metadata.ageHeader = -5 ∧
    (createCacheEntry (V := Nat) (fun _ => none) 0 0
        { age := some "-5" } 200).metadata.ageHeader < 0 := by
  constructor
  · decide
  · decide

/-- Claim C6, amended: the created entry ageHeader is the Age header run
through parseInt with 0 substituted when the header is absent or
non-numeric; a negative parsed value is stored as-is, so ageHeader is
only guaranteed non-negative when the parsed value is. -/
theorem c6_age_header_characterization :
    ∀ (V : Type) (dateParse : String → Option Int) (now : Int) (v : V)
      (h : HeadersModel) (statusCode : Int),
      (createCacheEntry dateParse now v h statusCode).metadata.ageHeader =
        (match h.age with
         | none => 0
         | some raw => (jsParseInt (jsTrim raw)).getD 0) := by
  intro V dateParse now v h statusCode
  show ageFromHeader h.age = _
  cases hga : h.age with
  | none => rfl
  | some raw =>
    simp only [ageFromHeader]
    cases hj : jsParseInt (jsTrim raw) with
    | none => rfl
    | some n =>
      by_cases hn : n = 0
      · simp [hn]
      · simp [hn]

/-- Claim C7: `calculateStoreTTL` equals the spec formula (lifetime plus
the larger of the SWR and SIE windows and 0, except defaultTTL when
maxAge is absent and the lifetime is 0), and every cache write the
orchestrator emits carries exactly that TTL clamped through `clampTTL`
with the resolved overrides. -/
theorem c7_store_ttl_and_clamping :
    (∀ (dateParse : String → Option Int) (m : CacheEntryMetadata) (d : Rat),
      calculateStoreTTL dateParse m d = specStoreTTL dateParse m d) ∧
    (∀ (V : Type) (env : GetEnv V) (e : CacheEntry V) (t : Rat),
      GetEvent.cacheSet e t ∈ (runGet env).2 → t = writeTTL env e.metadata) := by
  constructor
  · intro dateParse m d
    unfold calculateStoreTTL specStoreTTL specStaleWindow
    by_cases h1 : calculateFreshnessLifetime dateParse m = 0 ∧
        m.cacheControl.maxAge = none
    · rw [if_pos h1, if_pos ⟨h1.2, h1.1⟩]
    · rw [if_neg h1, if_neg (fun h2 => h1 ⟨h2.2, h2.1⟩)]
      rw [max_eq_left]
      exact le_max_of_le_left (Nat.cast_nonneg _)
  · intro V env e t h
    obtain ⟨s, hs, hno, _⟩ := runGet_trace_split env
    rw [hs, List.mem_append] at h
    rcases h with h | h
    · exact tryBlock_cacheSet env e t h
    · exact absurd h (hno e t)

/-- Claim C7, witness: the concrete cache-write call stores its entry
with TTL 50 (= max-age 50 with no stale windows, unclamped), and the
clamping conclusion applies to that write. -/
theorem c7_witness : (50 : Rat) = writeTTL cacheWriteEnv cacheWriteEntry.metadata := by
  have hmeta : cacheWriteEntry.metadata =
      { cacheControl := { maxAge := some 50 }, responseDate := 0,
        storedAt := 0, ageHeader := 0, statusCode := 200 } := by
    decide
  have httl : writeTTL cacheWriteEnv cacheWriteEntry.metadata = 50 := by
    rw [hmeta]
    norm_num [writeTTL, cacheWriteEnv, clampTTL, calculateStoreTTL,
      calculateFreshnessLifetime]
  have hmem : GetEvent.cacheSet cacheWriteEntry 50 ∈ (runGet cacheWriteEnv).2 := by
    have h0 : (runGet cacheWriteEnv).2 =
        [GetEvent.fetchInvoked,
          GetEvent.cacheSet cacheWriteEntry
            (writeTTL cacheWriteEnv cacheWriteEntry.metadata)] := rfl
    rw [h0, httl]
    simp
  exact c7_store_ttl_and_clamping.2 Nat cacheWriteEnv cacheWriteEntry 50 hmem

/-- Claim C8, counterexample: `Retry-After: 0` parses to a wait of 0 ms,
and no cooldown is engaged even though the Retry-After header is
present, refuting the claimed `exactly when` condition. -/
theorem c8_counterexample :
    parseRetryAfterMs (fun _ => none) 0 (some "0") = some 0 ∧
    applyServerRateLimitHints (fun _ => none) 0
      (some { retryAfter := some "0" }) none = none := by
  constructor
  · decide
  · decide

/-- Claim C8, amended: the cooldown deadline `now + waitMs` is engaged
exactly when the claimed condition produces a wait (Retry-After parsed,
else a Reset-family value present with status 429 or 503 or Remaining
at most 0) and that wait is strictly positive; a Reset value strictly
greater than now+1s in seconds is interpreted as an absolute
epoch-seconds deadline and otherwise as relative seconds. -/
theorem c8_cooldown_engagement_characterization :
    (∀ (dateParse : String → Option Int) (now : Int) (h : HintInputs)
      (statusCode : Option Int),
      applyServerRateLimitHints dateParse now (some h) statusCode =
        (match claimCooldownWait dateParse now h statusCode with
         | some w => if 0 < w then some (now + w) else none
         | none => none)) ∧
    (∀ (now parsed : Int),
      parseResetMsOfParsed now parsed =
        (if parsed = 0 then 0
         else if parsed > Int.fdiv now 1000 + 1 then
           max 0 ((parsed - Int.fdiv now 1000) * 1000)
         else parsed * 1000)) := by
  constructor
  · intro dateParse now h statusCode
    have key : ∀ o : Option Int,
        (match o with
         | none => none
         | some w => if w ≤ 0 then none else some (now + w)) =
        (match o with
         | some w => if 0 < w then some (now + w) else none
         | none => (none : Option Int)) := by
      intro o
      rcases o with _ | w
      · rfl
      · simp only
        split_ifs <;> first | rfl | (exfalso; omega)
    exact key (claimCooldownWait dateParse now h statusCode)
  · intro now parsed
    rfl

/-- Claim C9: a stored value that fails the cache-envelope guard is
treated exactly as a cache miss: the run with a legacy raw value equals,
outcome and trace, the run with nothing cached, so the raw value is
never returned and the pipeline proceeds to dedup, rate limit and
fetch. -/
theorem c9_non_envelope_treated_as_miss :
    ∀ (V : Type) (env : GetEnv V) (v : V),
      runGet { env with hasCache := true, cacheResult := some (.legacyRaw v) } =
        runGet { env with hasCache := true, cacheResult := none } := by
  intro V env v
  rfl

/-- Claim C10: with both overrides present, `clampTTL` computes
`min(max(ttl, minimumTTL), maximumTTL)`; when the overrides conflict
(minimum exceeds maximum) the maximum wins for every input TTL. -/
theorem c10_clamp_ttl_min_max :
    ∀ (clientOverrides : Option CacheOverrideOptions) (t m M : Rat)
      (s c : Option Bool),
      clampTTL clientOverrides t
        (some { ignoreNoStore := s, ignoreNoCache := c,
                minimumTTL := some m, maximumTTL := some M }) =
        min (max t m) M ∧
      (M < m →
        clampTTL clientOverrides t
          (some { ignoreNoStore := s, ignoreNoCache := c,
                  minimumTTL := some m, maximumTTL := some M }) = M) := by
  intro clientOverrides t m M s c
  refine ⟨rfl, fun hMm => ?_⟩
  show min (max t m) M = M
  exact min_eq_right (le_of_lt (lt_of_lt_of_le hMm (le_max_right t m)))

/-- Claim C10, witness: conflicting overrides (minimum 10, maximum 3)
clamp a TTL of 5 to 3. -/
theorem c10_witness :
    clampTTL none 5 (some { ignoreNoStore := none, ignoreNoCache := none,
                            minimumTTL := some 10, maximumTTL := some 3 }) = 3 :=
  (c10_clamp_ttl_min_max none 5 10 3 none none).2 (by norm_num)

end HttpToolkit
